import Mathlib

/-!
Verification of the data-compilation pipeline of the `domestic_energy`
repository (`src/compile_data.py`), as a shallow embedding in Lean 4.

Numeric columns are embedded as exact rationals; pandas/numpy float
division is modelled by `PFloat`, a rational extended with the IEEE
special values `inf`, `ninf` and `nan` (in pandas, `nan` is the missing
marker).  Count columns of the census/council-tax tables are naturals
(the script parses them with `astype(int)` after replacing the redaction
marker `"-"` with `"0"`).
-/

namespace DomesticEnergy

/-- Rational extended with the IEEE special values produced by
numpy/pandas float arithmetic.  `nan` is what pandas treats as missing. -/
inductive PFloat where
  | num (q : ℚ)
  | inf
  | ninf
  | nan
deriving DecidableEq

/-- Division as performed by numpy/pandas on the (integer- or
rational-valued) columns of this pipeline: division by zero yields `nan`
when the numerator is zero and a signed infinity otherwise; it never
raises. -/
def fdiv (a b : ℚ) : PFloat :=
  if b = 0 then (if a = 0 then PFloat.nan else if 0 < a then PFloat.inf else PFloat.ninf)
  else PFloat.num (a / b)

/-- Subtraction of a `PFloat` from a rational constant (used for
`2021 - build_year / totals` in the building-age feature); `nan`
propagates. -/
def psub (a : ℚ) : PFloat → PFloat
  | PFloat.num q => PFloat.num (a - q)
  | PFloat.inf => PFloat.ninf
  | PFloat.ninf => PFloat.inf
  | PFloat.nan => PFloat.nan

/-! Pricing / policy constants, `compile_data.py` lines 55-57. -/

def GAS_PRICE_PER_KWH : ℚ := 33 / 10

def ELECTRIC_PRICE_PER_KWH : ℚ := 19

def POLITICALLY_GREEN_THRESHOLD : ℚ := 1 / 10

/-! Energy-cost feature, `compile_data.py` lines 163-169:
`df["pct_electric"] = elec_consumption / total_consumption` and
`energy_cost = ELECTRIC_PRICE_PER_KWH * x + GAS_PRICE_PER_KWH * (1 - x)`. -/

/-- Fraction of consumption that is electric for one LSOA row
(`df["pct_electric"]`). -/
def pct_electric (elec total : ℚ) : PFloat := fdiv elec total

/-- Energy cost estimate for one LSOA row, as a function of its
`pct_electric` value `x`. -/
def energy_cost (x : ℚ) : ℚ :=
  ELECTRIC_PRICE_PER_KWH * x + GAS_PRICE_PER_KWH * (1 - x)

/-! Household size / occupancy aggregation, `compile_data.py`
lines 219-259: per-row derived columns, then a `groupby("LSOA").sum()`
and a division by the summed `Observation` column. -/

/-- One row of the `RM202` household-size-by-rooms census table, after
the column renames of `compile_data.py`: the LSOA code, the
`Household size (5 categories) Code`, the
`Number of rooms ... (6 categories) Code` and the `Observation` count.
In the source data the rooms code ranges over 1-6. -/
structure HouseholdRow where
  LSOA : String
  hh_size_code : ℕ
  rooms_code : ℕ
  observation : ℕ
deriving DecidableEq

/-- Per-row `pct_home_occupancy` column: household-size code divided by
rooms code (float division in the script). -/
def pct_home_occupancy_row (r : HouseholdRow) : ℚ :=
  (r.hh_size_code : ℚ) / (r.rooms_code : ℚ)

/-- Per-row `pct_home_occupancy_x_obs` column. -/
def pct_home_occupancy_x_obs (r : HouseholdRow) : ℚ :=
  pct_home_occupancy_row r * (r.observation : ℚ)

/-- Per-row `home_size_x_obs` column (integer product in the script). -/
def home_size_x_obs (r : HouseholdRow) : ℕ :=
  r.rooms_code * r.observation

/-- Sum of a natural-valued derived column over one LSOA group
(the `groupby("LSOA")[...].sum()` of the script). -/
def groupSumN (g : HouseholdRow → ℕ) (rows : List HouseholdRow) (a : String) : ℕ :=
  ((rows.filter (fun r => decide (r.LSOA = a))).map g).sum

/-- Sum of a rational-valued derived column over one LSOA group. -/
def groupSumQ (g : HouseholdRow → ℚ) (rows : List HouseholdRow) (a : String) : ℚ :=
  ((rows.filter (fun r => decide (r.LSOA = a))).map g).sum

/-- Summed `Observation` column for one LSOA group. -/
def obsTotal (rows : List HouseholdRow) (a : String) : ℕ :=
  groupSumN (fun r => r.observation) rows a

/-- `totals["home_size"] = home_size_x_obs_sum / Observation_sum` for one
LSOA. -/
def home_size (rows : List HouseholdRow) (a : String) : PFloat :=
  fdiv (groupSumN home_size_x_obs rows a : ℚ) (obsTotal rows a : ℚ)

/-- `totals["pct_home_occupancy"] = pct_home_occupancy_x_obs_sum /
Observation_sum` for one LSOA. -/
def pct_home_occupancy (rows : List HouseholdRow) (a : String) : PFloat :=
  fdiv (groupSumQ pct_home_occupancy_x_obs rows a) (obsTotal rows a : ℚ)

/-! Building-type (exposed surfaces) feature, `compile_data.py`
lines 266-318: per-LSOA row of the `CTSOP_3_1_2021` table; the five
type-count columns are weighted by `exposed_surfaces_per_type` and the
weighted sum is divided by the reported `all_properties` count. -/

/-- One LSOA row of the council-tax building-type table after the
`"-" -> "0"` replacement and `astype(int)`. -/
structure BuildingTypeRow where
  ecode : String
  bungalow_total : ℕ
  flat_mais_total : ℕ
  house_terraced_total : ℕ
  house_semi_total : ℕ
  house_detached_total : ℕ
  all_properties : ℕ
deriving DecidableEq

/-- Weighted sum of the type counts by the `exposed_surfaces_per_type`
table (bungalow 5, flat/maisonette 2, terraced 3, semi 4, detached 5). -/
def total_exposed_surfaces (r : BuildingTypeRow) : ℕ :=
  5 * r.bungalow_total + 2 * r.flat_mais_total + 3 * r.house_terraced_total +
    4 * r.house_semi_total + 5 * r.house_detached_total

/-- Sum of the five building-type count columns of a row. -/
def type_count_total (r : BuildingTypeRow) : ℕ :=
  r.bungalow_total + r.flat_mais_total + r.house_terraced_total +
    r.house_semi_total + r.house_detached_total

/-- `home_exposed_surfaces` for one LSOA row:
`total_exposed_surfaces / all_properties` (numpy division in the
script's list comprehension). -/
def home_exposed_surfaces (r : BuildingTypeRow) : PFloat :=
  fdiv (total_exposed_surfaces r : ℚ) (r.all_properties : ℚ)

/-! Building-age feature, `compile_data.py` lines 325-380: build-period
count columns weighted by the `build_dates` representative-year table,
divided by the summed period counts, subtracted from 2021. -/

/-- Representative build year per build-period bucket
(`build_dates` dictionary of the script). -/
def build_dates : List (String × ℚ) :=
  [("bp_pre_1900", 1900), ("bp_1900_1918", 1910), ("bp_1919_1929", 1925),
   ("bp_1930_1939", 1935), ("bp_1945_1954", 1950), ("bp_1955_1964", 1960),
   ("bp_1965_1972", 1969), ("bp_1973_1982", 1978), ("bp_1983_1992", 1988),
   ("bp_1993_1999", 1996), ("bp_2000_2008", 2004), ("bp_2009", 2009),
   ("bp_2010", 2010), ("bp_2011", 2011), ("bp_2012", 2012), ("bp_2013", 2013),
   ("bp_2014", 2014), ("bp_2015", 2015), ("bp_2016", 2016), ("bp_2017", 2017),
   ("bp_2018", 2018), ("bp_2019", 2019), ("bp_2020", 2020), ("bp_2021", 2021),
   ("bp_2022_2023", 2021), ("bp_unkw", 1900)]

/-- One LSOA row of the council-tax building-age table: the area code
and the count held in each build-period column (naturals after the
`"-" -> "0"` replacement and `astype(int)`). -/
structure BuildingAgeRow where
  ecode : String
  count : String → ℕ

/-- `build_year` for one row: build-period counts weighted by the
representative year. -/
def build_year (r : BuildingAgeRow) : ℚ :=
  (build_dates.map (fun kv => kv.2 * (r.count kv.1 : ℚ))).sum

/-- Summed build-period counts for one row (`totals` of the script). -/
def age_obs_total (r : BuildingAgeRow) : ℕ :=
  (build_dates.map (fun kv => r.count kv.1)).sum

/-- `home_age` for one row: `2021 - build_year / totals`. -/
def home_age (r : BuildingAgeRow) : PFloat :=
  psub 2021 (fdiv (build_year r) (age_obs_total r : ℚ))

/-! Supporting lemmas. -/

/-- Cast of a grouped natural sum to a rational is the sum of the cast
per-row column. -/
theorem groupSumN_cast (g : HouseholdRow → ℕ) (rows : List HouseholdRow) (a : String) :
    (groupSumN g rows a : ℚ) =
      ((rows.filter (fun r => decide (r.LSOA = a))).map (fun r => (g r : ℚ))).sum := by
  simp [groupSumN, Nat.cast_list_sum, List.map_map]
  rfl

/-- When the summed observation count of a group is zero, every row of
the group has a zero observation count. -/
theorem obsTotal_eq_zero (rows : List HouseholdRow) (a : String)
    (h : obsTotal rows a = 0) :
    ∀ r ∈ rows.filter (fun r => decide (r.LSOA = a)), r.observation = 0 := by
  intro r hr
  exact List.sum_eq_zero_iff.mp h (r.observation) (List.mem_map_of_mem _ hr)

/-- C10: for a base row with `0 ≤ elec_consumption ≤ total_consumption`
and `total_consumption > 0`, the derived `pct_electric` is the exact
quotient and `energy_cost` is the convex combination
`ELECTRIC_PRICE_PER_KWH * x + GAS_PRICE_PER_KWH * (1 - x)`, so it lies
between `GAS_PRICE_PER_KWH = 3.3` and `ELECTRIC_PRICE_PER_KWH = 19.0`
inclusive. -/
theorem c10_energy_cost_convex_bounds (e t : ℚ)
    (h0 : 0 ≤ e) (h1 : e ≤ t) (h2 : 0 < t) :
    pct_electric e t = PFloat.num (e / t) ∧
    energy_cost (e / t) =
      ELECTRIC_PRICE_PER_KWH * (e / t) + GAS_PRICE_PER_KWH * (1 - e / t) ∧
    GAS_PRICE_PER_KWH ≤ energy_cost (e / t) ∧
    energy_cost (e / t) ≤ ELECTRIC_PRICE_PER_KWH := by
  have hx0 : 0 ≤ e / t := div_nonneg h0 h2.le
  have hx1 : e / t ≤ 1 := (div_le_one h2).mpr h1
  refine ⟨by simp [pct_electric, fdiv, h2.ne'], rfl, ?_, ?_⟩
  · unfold energy_cost ELECTRIC_PRICE_PER_KWH GAS_PRICE_PER_KWH
    linarith
  · unfold energy_cost ELECTRIC_PRICE_PER_KWH GAS_PRICE_PER_KWH
    linarith

/-- Witness for C10 at the concrete row `elec = 1`, `total = 2`. -/
theorem c10_energy_cost_convex_bounds_witness :
    pct_electric 1 2 = PFloat.num (1 / 2) ∧
    energy_cost (1 / 2) =
      ELECTRIC_PRICE_PER_KWH * (1 / 2) + GAS_PRICE_PER_KWH * (1 - 1 / 2) ∧
    GAS_PRICE_PER_KWH ≤ energy_cost (1 / 2) ∧
    energy_cost (1 / 2) ≤ ELECTRIC_PRICE_PER_KWH :=
  c10_energy_cost_convex_bounds 1 2 (by norm_num) (by norm_num) (by norm_num)

/-- C5: for every area whose summed observation count is nonzero, the
categorical aggregation returns the count-weighted average
`sum(weight_fn(row) * obs) / sum(obs)` over that area's rows — with
`weight_fn` the rooms code for `home_size` and the occupancy ratio for
`pct_home_occupancy` — and on the concrete rows
`[(area A, rooms 4, occupants bucket 2, obs 10),
  (area A, rooms 3, occupants bucket 2, obs 5)]` the `home_size` of `A`
is `(4*10 + 3*5)/15 = 11/3`. -/
theorem c5_weighted_average_formula (rows : List HouseholdRow) (a : String)
    (h : (obsTotal rows a : ℚ) ≠ 0) :
    home_size rows a =
      PFloat.num
        (((rows.filter (fun r => decide (r.LSOA = a))).map
            (fun r => (r.rooms_code : ℚ) * (r.observation : ℚ))).sum /
          ((rows.filter (fun r => decide (r.LSOA = a))).map
            (fun r => (r.observation : ℚ))).sum) ∧
    pct_home_occupancy rows a =
      PFloat.num
        (((rows.filter (fun r => decide (r.LSOA = a))).map
            (fun r => pct_home_occupancy_row r * (r.observation : ℚ))).sum /
          ((rows.filter (fun r => decide (r.LSOA = a))).map
            (fun r => (r.observation : ℚ))).sum) ∧
    home_size [⟨"A", 2, 4, 10⟩, ⟨"A", 2, 3, 5⟩] "A" = PFloat.num (11 / 3) := by
  have hden : (obsTotal rows a : ℚ) =
      ((rows.filter (fun r => decide (r.LSOA = a))).map
        (fun r => (r.observation : ℚ))).sum := groupSumN_cast _ rows a
  have hnum : (groupSumN home_size_x_obs rows a : ℚ) =
      ((rows.filter (fun r => decide (r.LSOA = a))).map
        (fun r => (r.rooms_code : ℚ) * (r.observation : ℚ))).sum := by
    rw [groupSumN_cast]
    simp [home_size_x_obs]
  refine ⟨?_, ?_,
    by norm_num [home_size, fdiv, groupSumN, obsTotal, home_size_x_obs]⟩
  · rw [home_size, fdiv, if_neg h, hnum, hden]
  · rw [pct_home_occupancy, fdiv, if_neg h, hden]
    rfl

/-- Witness for C5 at the concrete two-row table of the claim. -/
theorem c5_weighted_average_formula_witness :
    home_size [⟨"A", 2, 4, 10⟩, ⟨"A", 2, 3, 5⟩] "A" = PFloat.num (11 / 3) :=
  (c5_weighted_average_formula [⟨"A", 2, 4, 10⟩, ⟨"A", 2, 3, 5⟩] "A"
    (by norm_num [obsTotal, groupSumN])).2.2

/-- C2: for each of the four categorical aggregations, an area whose
total observation count is zero gets `nan` — the pandas missing marker —
never a raised division error (the embedding is a total function) and
never the value zero.  For `home_exposed_surfaces` the divisor is the
reported `all_properties` column, so the claim additionally uses the
documented table invariant that the category counts sum to that
reported total. -/
theorem c2_zero_total_yields_missing (rows : List HouseholdRow) (a : String)
    (rt : BuildingTypeRow) (rg : BuildingAgeRow)
    (h1 : obsTotal rows a = 0)
    (h2 : type_count_total rt = rt.all_properties)
    (h3 : rt.all_properties = 0)
    (h4 : age_obs_total rg = 0) :
    home_size rows a = PFloat.nan ∧
    pct_home_occupancy rows a = PFloat.nan ∧
    home_exposed_surfaces rt = PFloat.nan ∧
    home_age rg = PFloat.nan := by
  have hobs := obsTotal_eq_zero rows a h1
  refine ⟨?_, ?_, ?_, ?_⟩
  · have hnum : groupSumN home_size_x_obs rows a = 0 := by
      refine List.sum_eq_zero ?_
      intro x hx
      obtain ⟨r, hr, rfl⟩ := List.mem_map.mp hx
      simp [home_size_x_obs, hobs r hr]
    simp [home_size, hnum, h1, fdiv]
  · have hnum : groupSumQ pct_home_occupancy_x_obs rows a = 0 := by
      refine List.sum_eq_zero ?_
      intro x hx
      obtain ⟨r, hr, rfl⟩ := List.mem_map.mp hx
      simp [pct_home_occupancy_x_obs, hobs r hr]
    simp [pct_home_occupancy, hnum, h1, fdiv]
  · have hz : type_count_total rt = 0 := h2.trans h3
    have hsum : total_exposed_surfaces rt = 0 := by
      unfold type_count_total at hz
      unfold total_exposed_surfaces
      omega
    simp [home_exposed_surfaces, hsum, h3, fdiv]
  · have hcounts : ∀ kv ∈ build_dates, rg.count kv.1 = 0 := by
      intro kv hkv
      exact List.sum_eq_zero_iff.mp h4 (rg.count kv.1) (List.mem_map_of_mem _ hkv)
    have hnum : build_year rg = 0 := by
      refine List.sum_eq_zero ?_
      intro x hx
      obtain ⟨kv, hkv, rfl⟩ := List.mem_map.mp hx
      simp [hcounts kv hkv]
    simp [home_age, hnum, h4, fdiv, psub]

/-- Witness for C2 at a one-row household table with zero observations,
an all-zero building-type row and an all-zero building-age row. -/
theorem c2_zero_total_yields_missing_witness :
    home_size [⟨"B", 1, 2, 0⟩] "B" = PFloat.nan ∧
    pct_home_occupancy [⟨"B", 1, 2, 0⟩] "B" = PFloat.nan ∧
    home_exposed_surfaces ⟨"E01", 0, 0, 0, 0, 0, 0⟩ = PFloat.nan ∧
    home_age ⟨"E01", fun _ => 0⟩ = PFloat.nan :=
  c2_zero_total_yields_missing [⟨"B", 1, 2, 0⟩] "B" ⟨"E01", 0, 0, 0, 0, 0, 0⟩
    ⟨"E01", fun _ => 0⟩ (by decide) (by decide) (by decide)
    (by simp [age_obs_total, build_dates])

/-- C8: the per-area weighted-average aggregations are invariant under
any permutation of the input rows (grouped sums are order-independent),
and the per-area multiset of `home_exposed_surfaces` values of the
building-type table is likewise permutation-invariant. -/
theorem c8_aggregation_order_independent (rows rows2 : List HouseholdRow)
    (bt bt2 : List BuildingTypeRow)
    (hp : rows.Perm rows2) (hb : bt.Perm bt2) :
    (∀ a, home_size rows a = home_size rows2 a ∧
      pct_home_occupancy rows a = pct_home_occupancy rows2 a) ∧
    (∀ a, ((bt.filter (fun r => decide (r.ecode = a))).map home_exposed_surfaces).Perm
      ((bt2.filter (fun r => decide (r.ecode = a))).map home_exposed_surfaces)) := by
  have hN : ∀ (g : HouseholdRow → ℕ) a, groupSumN g rows a = groupSumN g rows2 a := by
    intro g a
    exact ((hp.filter _).map g).sum_eq
  have hQ : ∀ (g : HouseholdRow → ℚ) a, groupSumQ g rows a = groupSumQ g rows2 a := by
    intro g a
    exact ((hp.filter _).map g).sum_eq
  refine ⟨fun a => ⟨?_, ?_⟩, fun a => (hb.filter _).map _⟩
  · simp [home_size, obsTotal, hN]
  · simp [pct_home_occupancy, obsTotal, hN, hQ]

/-- Witness for C8 at a concrete two-row household table and two-row
building-type table, each against its reversal. -/
theorem c8_aggregation_order_independent_witness :
    (home_size [⟨"A", 1, 2, 3⟩, ⟨"A", 2, 3, 4⟩] "A" =
      home_size [⟨"A", 2, 3, 4⟩, ⟨"A", 1, 2, 3⟩] "A") ∧
    (([(⟨"E01", 1, 2, 3, 4, 5, 15⟩ : BuildingTypeRow), ⟨"E01", 0, 1, 0, 1, 0, 2⟩].filter
        (fun r => decide (r.ecode = "E01"))).map home_exposed_surfaces).Perm
      (([(⟨"E01", 0, 1, 0, 1, 0, 2⟩ : BuildingTypeRow), ⟨"E01", 1, 2, 3, 4, 5, 15⟩].filter
        (fun r => decide (r.ecode = "E01"))).map home_exposed_surfaces) :=
  ⟨((c8_aggregation_order_independent _ _ [] []
      (List.Perm.swap ⟨"A", 2, 3, 4⟩ ⟨"A", 1, 2, 3⟩ []) (List.Perm.refl [])).1 "A").1,
    (c8_aggregation_order_independent [] [] _ _ (List.Perm.refl [])
      (List.Perm.swap ⟨"E01", 0, 1, 0, 1, 0, 2⟩ ⟨"E01", 1, 2, 3, 4, 5, 15⟩ [])).2 "E01"⟩

/-! Nearest-temperature index, `compile_data.py` lines 127-156.
The script builds `temp_dict = {coord: t for coord, t in zip(...)}` — a
Python dict, so coordinates arriving twice keep their first position but
take the LAST value — and then filters to `v > 0`.
`find_closest_temp_measurement` takes `min` over the dict keys by
geodesic distance (Python `min` returns the first minimum in iteration
order) and indexes the dict.  The geodesic distance function itself is
kept as an explicit parameter `dist`; every property below holds for an
arbitrary distance function, in particular for `geopy`'s. -/

/-- Latitude/longitude pair. -/
abbrev Coord : Type := ℚ × ℚ

/-- One climate observation: a coordinate and a temperature value. -/
abbrev Obs : Type := Coord × ℚ

/-- Python-dict insertion into an association list: an existing key
keeps its position and takes the new value, a new key is appended. -/
def dictInsert (k : Coord) (v : ℚ) : List Obs → List Obs
  | [] => [(k, v)]
  | e :: rest => if e.1 = k then (k, v) :: rest else e :: dictInsert k v rest

/-- The dict comprehension `{coord: t for coord, t in zip(...)}`:
left-to-right insertion, later duplicates of a coordinate overwrite
the stored value. -/
def dictOfList (obs : List Obs) : List Obs :=
  obs.foldl (fun d e => dictInsert e.1 e.2 d) []

/-- `temp_dict` after the `if v > 0` filter. -/
def temp_dict (obs : List Obs) : List Obs :=
  (dictOfList obs).filter (fun e => decide (0 < e.2))

/-- Python `min(..., key=f)` over a nonempty sequence with start `x`:
a left fold that replaces the current best only on a strict decrease,
so the first minimum wins. -/
def minFold {α : Type} (f : α → ℚ) (x : α) (xs : List α) : α :=
  xs.foldl (fun best y => if f y < f best then y else best) x

/-- Python `min(..., key=f)` as an `Option` (`none` models the
`ValueError` raised on an empty sequence). -/
def minBy {α : Type} (f : α → ℚ) : List α → Option α
  | [] => none
  | x :: xs => some (minFold f x xs)

/-- `find_closest_temp_measurement(this_point)`: minimum of the retained
dict entries by distance from the query point, returning the stored
temperature; `none` models the uncaught error on an empty index.  Taking
the minimum over entries and projecting the value is the same as the
script's minimum over `temp_dict.keys()` followed by `temp_dict[...]`,
because dict keys are unique. -/
def find_closest_temp_measurement (dist : Coord → Coord → ℚ) (obs : List Obs)
    (p : Coord) : Option ℚ :=
  (minBy (fun e => dist p e.1) (temp_dict obs)).map (fun e => e.2)

/-- Spec-side reading of the geo-index contract quoted by C4 and C9,
for comparison with the implementation: drop exactly the observations
whose value is non-positive and return the value of the
first-encountered remaining observation (in input-sequence order)
minimizing the distance to the query point. -/
def spec_query (dist : Coord → Coord → ℚ) (obs : List Obs) (p : Coord) : Option ℚ :=
  (minBy (fun e => dist p e.1) (obs.filter (fun e => decide (0 < e.2)))).map
    (fun e => e.2)

/-- Concrete planar squared distance, used to instantiate the `dist`
parameter in closed statements whose truth does not depend on the
choice of distance function. -/
def sqDist (p q : Coord) : ℚ := (p.1 - q.1) ^ 2 + (p.2 - q.2) ^ 2

/-- Entries produced by a dict insertion are the inserted pair or come
from the previous dict. -/
theorem dictInsert_mem (k : Coord) (v : ℚ) (d : List Obs) :
    ∀ e ∈ dictInsert k v d, e = (k, v) ∨ e ∈ d := by
  induction d with
  | nil => simp [dictInsert]
  | cons a rest ih =>
    intro e he
    rw [dictInsert] at he
    by_cases hk : a.1 = k
    · rw [if_pos hk] at he
      rcases List.mem_cons.mp he with rfl | h2
      · exact Or.inl rfl
      · exact Or.inr (List.mem_cons_of_mem _ h2)
    · rw [if_neg hk] at he
      rcases List.mem_cons.mp he with rfl | h2
      · exact Or.inr (List.mem_cons_self _ _)
      · rcases ih e h2 with h3 | h3
        · exact Or.inl h3
        · exact Or.inr (List.mem_cons_of_mem _ h3)

/-- Every entry of the collapsed dict is one of the input observations. -/
theorem dictOfList_mem (obs : List Obs) : ∀ e ∈ dictOfList obs, e ∈ obs := by
  suffices h : ∀ (d : List Obs) (e : Obs),
      e ∈ obs.foldl (fun d e => dictInsert e.1 e.2 d) d → e ∈ d ∨ e ∈ obs by
    intro e he
    rcases h [] e he with h2 | h2
    · exact absurd h2 (List.not_mem_nil e)
    · exact h2
  induction obs with
  | nil => intro d e he; exact Or.inl he
  | cons a rest ih =>
    intro d e he
    rcases ih (dictInsert a.1 a.2 d) e he with h2 | h2
    · rcases dictInsert_mem a.1 a.2 d e h2 with h3 | h3
      · exact Or.inr (by simp [h3])
      · exact Or.inl h3
    · exact Or.inr (List.mem_cons_of_mem _ h2)

/-- Result of the min-fold: either the start value is minimal, or the
result is the first entry of the list strictly below the start value and
minimal among the list, everything before it being strictly greater. -/
theorem minFold_spec {α : Type} (f : α → ℚ) (xs : List α) (x : α) :
    (minFold f x xs = x ∧ ∀ y ∈ xs, f x ≤ f y) ∨
    (∃ i, ∃ hi : i < xs.length,
      xs.get ⟨i, hi⟩ = minFold f x xs ∧ f (minFold f x xs) < f x ∧
      (∀ y ∈ xs, f (minFold f x xs) ≤ f y) ∧
      (∀ j, ∀ hj : j < xs.length, j < i → f (minFold f x xs) < f (xs.get ⟨j, hj⟩))) := by
  induction xs generalizing x with
  | nil => exact Or.inl ⟨rfl, by simp⟩
  | cons y ys ih =>
    rw [show minFold f x (y :: ys) = minFold f (if f y < f x then y else x) ys from rfl]
    by_cases hlt : f y < f x
    · rw [if_pos hlt]
      rcases ih y with ⟨he, hmin⟩ | ⟨i, hi, hget, hlt2, hmin, hearly⟩
      · refine Or.inr ⟨0, by simp, by simp [he], by rw [he]; exact hlt, ?_, ?_⟩
        · intro z hz
          rw [he]
          rcases List.mem_cons.mp hz with rfl | hz2
          · exact le_refl _
          · exact hmin z hz2
        · intro j hj hj0
          omega
      · refine Or.inr ⟨i + 1, Nat.succ_lt_succ hi, by simpa using hget,
          hlt2.trans hlt, ?_, ?_⟩
        · intro z hz
          rcases List.mem_cons.mp hz with rfl | hz2
          · exact hlt2.le
          · exact hmin z hz2
        · intro j hj hjlt
          cases j with
          | zero => simpa using hlt2
          | succ k => simpa using hearly k (by omega) (by omega)
    · rw [if_neg hlt]
      have hy : f x ≤ f y := not_lt.mp hlt
      rcases ih x with ⟨he, hmin⟩ | ⟨i, hi, hget, hlt2, hmin, hearly⟩
      · refine Or.inl ⟨he, ?_⟩
        intro z hz
        rcases List.mem_cons.mp hz with rfl | hz2
        · exact hy
        · exact hmin z hz2
      · refine Or.inr ⟨i + 1, Nat.succ_lt_succ hi, by simpa using hget, hlt2, ?_, ?_⟩
        · intro z hz
          rcases List.mem_cons.mp hz with rfl | hz2
          · exact (hlt2.trans_le hy).le
          · exact hmin z hz2
        · intro j hj hjlt
          cases j with
          | zero => simpa using hlt2.trans_le hy
          | succ k => simpa using hearly k (by omega) (by omega)

/-- Python `min` over a nonempty list returns the first element
achieving the minimal key: it is minimal, and every earlier element has
a strictly greater key. -/
theorem minBy_spec {α : Type} (f : α → ℚ) (l : List α) (hne : l ≠ []) :
    ∃ m, minBy f l = some m ∧
      ∃ i, ∃ hi : i < l.length, l.get ⟨i, hi⟩ = m ∧
        (∀ y ∈ l, f m ≤ f y) ∧
        ∀ j, ∀ hj : j < l.length, j < i → f m < f (l.get ⟨j, hj⟩) := by
  cases l with
  | nil => exact absurd rfl hne
  | cons x xs =>
    rcases minFold_spec f xs x with ⟨he, hmin⟩ | ⟨i, hi, hget, hlt, hmin, hearly⟩
    · refine ⟨minFold f x xs, rfl, 0, by simp, by simp [he], ?_, ?_⟩
      · intro z hz
        rw [he]
        rcases List.mem_cons.mp hz with rfl | hz2
        · exact le_refl _
        · exact hmin z hz2
      · intro j hj hj0
        omega
    · refine ⟨minFold f x xs, rfl, i + 1, Nat.succ_lt_succ hi, by simpa using hget,
        ?_, ?_⟩
      · intro z hz
        rcases List.mem_cons.mp hz with rfl | hz2
        · exact hlt.le
        · exact hmin z hz2
      · intro j hj hjlt
        cases j with
        | zero => simpa using hlt
        | succ k => simpa using hearly k (by omega) (by omega)

/-- C6: when every observation is invalid the index is empty and a
query errors out (`none`, the uncaught exception of the script) for
every distance function and query point — it never returns a default
value. -/
theorem c6_empty_index_query_errors (obs : List Obs)
    (h : ∀ e ∈ obs, e.2 ≤ 0) :
    ∀ (dist : Coord → Coord → ℚ) (p : Coord),
      find_closest_temp_measurement dist obs p = none := by
  have hd : temp_dict obs = [] := by
    rw [temp_dict, List.filter_eq_nil_iff]
    intro e he
    simp only [decide_eq_true_eq, not_lt]
    exact h e (dictOfList_mem obs e he)
  intro dist p
  rw [find_closest_temp_measurement, hd]
  rfl

/-- Witness for C6: both observations are non-positive, so the concrete
query errors. -/
theorem c6_empty_index_query_errors_witness :
    find_closest_temp_measurement sqDist [((51, -1), 0), ((52, 0), -3)] (0, 0) =
      none :=
  c6_empty_index_query_errors [((51, -1), 0), ((52, 0), -3)] (by decide) sqDist (0, 0)

/-- C4 counterexample: with two observations at the same coordinate,
a later non-positive reading shadows an earlier valid one — the dict
collapse keeps only the last value, which the filter then removes.  The
claim as stated (drop exactly the non-positive observations, return the
nearest remaining one, here the valid reading 10.0) demands `some 10`,
but the code's index is empty and the query errors (`none`). -/
theorem c4_counterexample :
    spec_query sqDist [((51, -1), 10), ((51, -1), -5)] (51 + 1/100, -1) = some 10 ∧
    find_closest_temp_measurement sqDist [((51, -1), 10), ((51, -1), -5)]
      (51 + 1/100, -1) = none := by
  constructor
  · norm_num [spec_query, minBy, minFold, sqDist]
  · norm_num [find_closest_temp_measurement, temp_dict, dictOfList, dictInsert,
      minBy, Prod.ext_iff]

/-- C4 (amended): construction collapses observations sharing a
coordinate to the last one and then drops non-positive values, so every
retained index entry is positive and is one of the input observations; a
successful query returns the value of a retained entry whose location
minimizes the distance to the query point; and on the claim's example
`[(51,-1,10.0), (52,-0.1,0.0 — invalid)]` the query at `(51.01,-1)`
returns 10.0 (for any distance function). -/
theorem c4_nearest_valid_measurement (dist : Coord → Coord → ℚ)
    (obs : List Obs) (p : Coord) :
    (∀ e ∈ temp_dict obs, 0 < e.2 ∧ e ∈ obs) ∧
    (∀ v, find_closest_temp_measurement dist obs p = some v →
      ∃ e ∈ temp_dict obs, e.2 = v ∧
        ∀ e2 ∈ temp_dict obs, dist p e.1 ≤ dist p e2.1) ∧
    find_closest_temp_measurement dist [((51, -1), 10), ((52, -1/10), 0)]
      (51 + 1/100, -1) = some 10 := by
  refine ⟨?_, ?_, ?_⟩
  · intro e he
    have h1 := List.of_mem_filter he
    have h2 := List.mem_of_mem_filter he
    exact ⟨by simpa using h1, dictOfList_mem obs e h2⟩
  · intro v hv
    cases hd : temp_dict obs with
    | nil =>
      rw [find_closest_temp_measurement, hd] at hv
      exact absurd hv (by simp [minBy])
    | cons x xs =>
      obtain ⟨m, hm, i, hi, hget, hmin, -⟩ :=
        minBy_spec (fun e => dist p e.1) (x :: xs) (by simp)
      rw [find_closest_temp_measurement, hd, hm] at hv
      refine ⟨m, ?_, by simpa using hv, ?_⟩
      · exact hget ▸ List.get_mem _ _ _
      · intro e2 he2
        exact hmin e2 he2
  · have h : temp_dict [((51, -1), 10), ((52, -1/10), 0)] = [((51, -1), 10)] := by
      norm_num [temp_dict, dictOfList, dictInsert, Prod.ext_iff]
    rw [find_closest_temp_measurement, h]
    rfl

/-- Witness for C4 (amended) at the claim's concrete example, with the
planar squared distance standing in for the distance parameter. -/
theorem c4_nearest_valid_measurement_witness :
    find_closest_temp_measurement sqDist [((51, -1), 10), ((52, -1/10), 0)]
      (51 + 1/100, -1) = some 10 :=
  (c4_nearest_valid_measurement sqDist [((51, -1), 10), ((52, -1/10), 0)]
    (51 + 1/100, -1)).2.2

/-- C9 counterexample: two observations at the same location are
equidistant from any query point, and the claim's tie-break demands the
first-encountered one (value 10.0); but the dict collapse keeps the LAST
value for a repeated coordinate, so the code returns 20.0. -/
theorem c9_counterexample :
    spec_query sqDist [((51, -1), 10), ((51, -1), 20)] (51, -1) = some 10 ∧
    find_closest_temp_measurement sqDist [((51, -1), 10), ((51, -1), 20)]
      (51, -1) = some 20 := by
  constructor
  · norm_num [spec_query, minBy, minFold, sqDist]
  · norm_num [find_closest_temp_measurement, temp_dict, dictOfList, dictInsert,
      minBy, minFold, sqDist, Prod.ext_iff]

/-- C9 (amended): the lookup is deterministic — identical observation
sequences and query points give identical results; on a non-empty index
the query returns the value of the first index entry achieving the
minimal distance (index entries are the collapsed coordinates in
first-occurrence order, so a tie between equidistant DISTINCT locations
resolves to the earlier input observation); and among observations
sharing one coordinate the last encountered wins, as on the concrete
duplicate-coordinate input whose query returns 20. -/
theorem c9_deterministic_first_min (dist : Coord → Coord → ℚ)
    (obs obs2 : List Obs) (p p2 : Coord) (h1 : obs = obs2) (h2 : p = p2) :
    find_closest_temp_measurement dist obs p =
      find_closest_temp_measurement dist obs2 p2 ∧
    (temp_dict obs ≠ [] →
      ∃ m, ∃ i, ∃ hi : i < (temp_dict obs).length,
        (temp_dict obs).get ⟨i, hi⟩ = m ∧
        find_closest_temp_measurement dist obs p = some m.2 ∧
        (∀ e ∈ temp_dict obs, dist p m.1 ≤ dist p e.1) ∧
        (∀ j, ∀ hj : j < (temp_dict obs).length, j < i →
          dist p m.1 < dist p ((temp_dict obs).get ⟨j, hj⟩).1)) ∧
    find_closest_temp_measurement dist [((51, -1), 10), ((51, -1), 20)]
      (51, -1) = some 20 := by
  subst h1 h2
  refine ⟨rfl, ?_, ?_⟩
  · intro hne
    obtain ⟨m, hm, i, hi, hget, hmin, hearly⟩ :=
      minBy_spec (fun e => dist p e.1) (temp_dict obs) hne
    exact ⟨m, i, hi, hget,
      by rw [find_closest_temp_measurement, hm]; rfl, hmin, hearly⟩
  · have h : temp_dict [((51, -1), 10), ((51, -1), 20)] = [((51, -1), 20)] := by
      norm_num [temp_dict, dictOfList, dictInsert, Prod.ext_iff]
    rw [find_closest_temp_measurement, h]
    rfl

/-- Witness for C9 (amended) at the concrete duplicate-coordinate
input. -/
theorem c9_deterministic_first_min_witness :
    find_closest_temp_measurement sqDist [((51, -1), 10), ((51, -1), 20)]
      (51, -1) = some 20 :=
  (c9_deterministic_first_min sqDist [((51, -1), 10), ((51, -1), 20)]
    [((51, -1), 10), ((51, -1), 20)] (51, -1) (51, -1) rfl rfl).2.2

/-! Join engine, `compile_data.py` lines 183, 197, 211, 259, 318, 380:
six `df.merge(feature_table, on=key, how="left")` calls.  A pandas left
merge emits, for each left row in order, one output row per matching
right row, or a single row with a missing value when there is no match. -/

/-- Base row of the energy-consumption dataset after the column
selection and renames of `compile_data.py` lines 69-97. -/
structure BaseRow where
  LA_name : String
  LA : String
  MSOA_name : String
  MSOA : String
  LSOA_name : String
  LSOA : String
  Latitude : ℚ
  Longitude : ℚ
  elec_consumption : ℚ
  total_consumption : ℚ
  energy_consumption_per_person : ℚ
deriving DecidableEq

/-- All values stored under a key in a feature table, in table order. -/
def lookupAll {α : Type} (k : String) (tbl : List (String × α)) : List α :=
  (tbl.filter (fun e => decide (e.1 = k))).map (fun e => e.2)

/-- First value stored under a key in a feature table. -/
def lookupFirst {α : Type} (k : String) (tbl : List (String × α)) : Option α :=
  (tbl.find? (fun e => decide (e.1 = k))).map (fun e => e.2)

/-- Pandas `df.merge(tbl, on=key, how="left")`: each left row produces
one output row per matching right row, or one row carrying `none` (the
`NaN` missing marker) when no right row matches. -/
def mergeLeft {β α : Type} (keyOf : β → String) (rows : List β)
    (tbl : List (String × α)) : List (β × Option α) :=
  rows.flatMap (fun r =>
    match lookupAll (keyOf r) tbl with
    | [] => [(r, none)]
    | v :: vs => (v :: vs).map (fun v2 => (r, some v2)))

/-- A key absent from a table has no matches. -/
theorem lookupAll_eq_nil {α : Type} (k : String) (tbl : List (String × α))
    (h : k ∉ tbl.map Prod.fst) : lookupAll k tbl = [] := by
  rw [lookupAll, List.map_eq_nil_iff, List.filter_eq_nil_iff]
  intro e he
  simp only [decide_eq_true_eq]
  intro hk
  exact h (hk ▸ List.mem_map_of_mem Prod.fst he)

/-- Under a duplicate-free key column, a key has at most one match:
`lookupAll` is the `Option.toList` of `lookupFirst`. -/
theorem lookupAll_of_nodup {α : Type} (k : String) (tbl : List (String × α))
    (h : (tbl.map Prod.fst).Nodup) :
    lookupAll k tbl = (lookupFirst k tbl).toList := by
  induction tbl with
  | nil => rfl
  | cons a rest ih =>
    rw [List.map_cons, List.nodup_cons] at h
    by_cases hk : a.1 = k
    · have hrest : lookupAll k rest = [] := lookupAll_eq_nil k rest (hk ▸ h.1)
      rw [lookupAll, List.filter_cons_of_pos (by simpa using hk), List.map_cons,
        lookupFirst, List.find?_cons_of_pos _ (by simpa using hk)]
      rw [lookupAll] at hrest
      simp [hrest]
    · rw [lookupAll, List.filter_cons_of_neg (by simpa using hk),
        lookupFirst, List.find?_cons_of_neg _ (by simpa using hk)]
      exact ih h.2

/-- Under a duplicate-free key column, the left merge attaches to each
left row exactly the value (if any) stored under its key. -/
theorem mergeLeft_of_nodup {β α : Type} (keyOf : β → String) (rows : List β)
    (tbl : List (String × α)) (h : (tbl.map Prod.fst).Nodup) :
    mergeLeft keyOf rows tbl =
      rows.map (fun r => (r, lookupFirst (keyOf r) tbl)) := by
  induction rows with
  | nil => rfl
  | cons r rest ih =>
    rw [mergeLeft, List.flatMap_cons, List.map_cons]
    rw [mergeLeft] at ih
    rw [ih, lookupAll_of_nodup (keyOf r) tbl h]
    cases lookupFirst (keyOf r) tbl with
    | none => rfl
    | some v => rfl

/-- Under a duplicate-free key column, the left merge preserves the row
count. -/
theorem mergeLeft_length {β α : Type} (keyOf : β → String) (rows : List β)
    (tbl : List (String × α)) (h : (tbl.map Prod.fst).Nodup) :
    (mergeLeft keyOf rows tbl).length = rows.length := by
  rw [mergeLeft_of_nodup keyOf rows tbl h, List.length_map]

/-- The six feature merges of the pipeline in source order: income by
MSOA, voting by LA, economic activity by LA, household totals by LSOA,
building type by LSOA, building age by LSOA. -/
def pipelineMerges {α1 α2 α3 α4 α5 α6 : Type} (base : List BaseRow)
    (income : List (String × α1)) (voting : List (String × α2))
    (econ : List (String × α3)) (house : List (String × α4))
    (btype : List (String × α5)) (bage : List (String × α6)) :
    List ((((((BaseRow × Option α1) × Option α2) × Option α3) × Option α4) ×
      Option α5) × Option α6) :=
  mergeLeft (fun r => r.1.1.1.1.1.LSOA)
    (mergeLeft (fun r => r.1.1.1.1.LSOA)
      (mergeLeft (fun r => r.1.1.1.LSOA)
        (mergeLeft (fun r => r.1.1.LA)
          (mergeLeft (fun r => r.1.LA)
            (mergeLeft (fun r => r.MSOA) base income)
            voting)
          econ)
        house)
      btype)
    bage

/-- C1 counterexample: a left merge against a feature table holding two
rows under the same key duplicates the matching base row — the attach
does not preserve the row count, contradicting the claim's unconditional
invariant. -/
theorem c1_counterexample :
    (mergeLeft (fun r : BaseRow => r.MSOA)
      [⟨"Ln", "L1", "Mn", "M1", "Sn", "S1", 0, 0, 1, 2, 3⟩]
      [("M1", (1 : ℚ)), ("M1", 2)]).length = 2 ∧
    ([(⟨"Ln", "L1", "Mn", "M1", "Sn", "S1", 0, 0, 1, 2, 3⟩ : BaseRow)]).length = 1 := by
  constructor
  · norm_num [mergeLeft, lookupAll]
  · rfl

/-- C1 (amended): provided every attached feature table has at most one
row per join key (which the pipeline never checks), each of the six
feature merges preserves the row count, so the final table has one row
per base row; when additionally the base rows carry pairwise-distinct
LSOA codes this equals the number of distinct LSOA codes of the base
energy-consumption source. -/
theorem c1_row_count_invariant {α1 α2 α3 α4 α5 α6 : Type} (base : List BaseRow)
    (income : List (String × α1)) (voting : List (String × α2))
    (econ : List (String × α3)) (house : List (String × α4))
    (btype : List (String × α5)) (bage : List (String × α6))
    (h1 : (income.map Prod.fst).Nodup) (h2 : (voting.map Prod.fst).Nodup)
    (h3 : (econ.map Prod.fst).Nodup) (h4 : (house.map Prod.fst).Nodup)
    (h5 : (btype.map Prod.fst).Nodup) (h6 : (bage.map Prod.fst).Nodup)
    (hbase : (base.map (fun r => r.LSOA)).Nodup) :
    (pipelineMerges base income voting econ house btype bage).length =
      base.length ∧
    (pipelineMerges base income voting econ house btype bage).length =
      (base.map (fun r => r.LSOA)).dedup.length := by
  have hlen : (pipelineMerges base income voting econ house btype bage).length =
      base.length := by
    rw [pipelineMerges, mergeLeft_length _ _ _ h6, mergeLeft_length _ _ _ h5,
      mergeLeft_length _ _ _ h4, mergeLeft_length _ _ _ h3,
      mergeLeft_length _ _ _ h2, mergeLeft_length _ _ _ h1]
  refine ⟨hlen, ?_⟩
  rw [hlen, hbase.dedup, List.length_map]

/-- Witness for C1 (amended) on a concrete two-LSOA base with singleton
feature tables. -/
theorem c1_row_count_invariant_witness :
    (pipelineMerges
      [⟨"Ln", "L1", "Mn", "M1", "Sn", "S1", 0, 0, 1, 2, 3⟩,
       ⟨"Ln", "L1", "Mn", "M1", "Sn2", "S2", 0, 0, 1, 2, 3⟩]
      [("M1", (5 : ℚ))] [("L1", true)] [("L1", (7 : ℚ))]
      [("S1", ((3 : ℚ), (1 : ℚ)))] [("S1", (4 : ℚ))] [("S1", (1990 : ℚ))]).length =
      ([⟨"Ln", "L1", "Mn", "M1", "Sn", "S1", 0, 0, 1, 2, 3⟩,
        ⟨"Ln", "L1", "Mn", "M1", "Sn2", "S2", 0, 0, 1, 2, 3⟩] :
          List BaseRow).length ∧
    (pipelineMerges
      [⟨"Ln", "L1", "Mn", "M1", "Sn", "S1", 0, 0, 1, 2, 3⟩,
       ⟨"Ln", "L1", "Mn", "M1", "Sn2", "S2", 0, 0, 1, 2, 3⟩]
      [("M1", (5 : ℚ))] [("L1", true)] [("L1", (7 : ℚ))]
      [("S1", ((3 : ℚ), (1 : ℚ)))] [("S1", (4 : ℚ))] [("S1", (1990 : ℚ))]).length =
      (([⟨"Ln", "L1", "Mn", "M1", "Sn", "S1", 0, 0, 1, 2, 3⟩,
         ⟨"Ln", "L1", "Mn", "M1", "Sn2", "S2", 0, 0, 1, 2, 3⟩] :
          List BaseRow).map (fun r => r.LSOA)).dedup.length :=
  c1_row_count_invariant _ _ _ _ _ _ _ (by decide) (by decide) (by decide)
    (by decide) (by decide) (by decide) (by decide)

/-- C7 counterexample: when the parent-keyed feature table holds two
values under the same parent code, the merged table contains two rows
sharing that parent code but carrying different feature values — the
broadcast property fails as stated. -/
theorem c7_counterexample :
    ¬ (∀ x ∈ mergeLeft (fun r : BaseRow => r.MSOA)
          [⟨"Ln", "L1", "Mn", "M1", "Sn", "S1", 0, 0, 1, 2, 3⟩,
           ⟨"Ln", "L1", "Mn", "M1", "Sn2", "S2", 0, 0, 1, 2, 3⟩]
          [("M1", (1 : ℚ)), ("M1", 2)],
        ∀ y ∈ mergeLeft (fun r : BaseRow => r.MSOA)
          [⟨"Ln", "L1", "Mn", "M1", "Sn", "S1", 0, 0, 1, 2, 3⟩,
           ⟨"Ln", "L1", "Mn", "M1", "Sn2", "S2", 0, 0, 1, 2, 3⟩]
          [("M1", (1 : ℚ)), ("M1", 2)],
        x.1.MSOA = y.1.MSOA → x.2 = y.2) := by
  intro h
  have h1 : (⟨"Ln", "L1", "Mn", "M1", "Sn", "S1", 0, 0, 1, 2, 3⟩,
      some (1 : ℚ)) ∈ mergeLeft (fun r : BaseRow => r.MSOA)
      [⟨"Ln", "L1", "Mn", "M1", "Sn", "S1", 0, 0, 1, 2, 3⟩,
       ⟨"Ln", "L1", "Mn", "M1", "Sn2", "S2", 0, 0, 1, 2, 3⟩]
      [("M1", (1 : ℚ)), ("M1", 2)] := by
    norm_num [mergeLeft, lookupAll]
  have h2 : (⟨"Ln", "L1", "Mn", "M1", "Sn2", "S2", 0, 0, 1, 2, 3⟩,
      some (2 : ℚ)) ∈ mergeLeft (fun r : BaseRow => r.MSOA)
      [⟨"Ln", "L1", "Mn", "M1", "Sn", "S1", 0, 0, 1, 2, 3⟩,
       ⟨"Ln", "L1", "Mn", "M1", "Sn2", "S2", 0, 0, 1, 2, 3⟩]
      [("M1", (1 : ℚ)), ("M1", 2)] := by
    norm_num [mergeLeft, lookupAll]
  have := h _ h1 _ h2 rfl
  simp at this

/-- C7 (amended): provided the parent-keyed feature table has at most
one row per parent code (which the pipeline never checks), after a left
merge every pair of result rows sharing the same parent key carries an
identical attached feature value — the parent's value is broadcast to
all of its child rows. -/
theorem c7_parent_broadcast {β α : Type} (keyOf : β → String) (rows : List β)
    (tbl : List (String × α)) (h : (tbl.map Prod.fst).Nodup) :
    ∀ x ∈ mergeLeft keyOf rows tbl, ∀ y ∈ mergeLeft keyOf rows tbl,
      keyOf x.1 = keyOf y.1 → x.2 = y.2 := by
  rw [mergeLeft_of_nodup keyOf rows tbl h]
  intro x hx y hy hk
  obtain ⟨rx, hrx, rfl⟩ := List.mem_map.mp hx
  obtain ⟨ry, hry, rfl⟩ := List.mem_map.mp hy
  simp only at hk ⊢
  rw [hk]

/-- Witness for C7 (amended): two base rows under the same MSOA both
receive the MSOA's single income value. -/
theorem c7_parent_broadcast_witness :
    ((⟨"Ln", "L1", "Mn", "M1", "Sn", "S1", 0, 0, 1, 2, 3⟩ : BaseRow),
      some (5 : ℚ)).2 =
    ((⟨"Ln", "L1", "Mn", "M1", "Sn2", "S2", 0, 0, 1, 2, 3⟩ : BaseRow),
      some (5 : ℚ)).2 :=
  c7_parent_broadcast (fun r : BaseRow => r.MSOA)
    [⟨"Ln", "L1", "Mn", "M1", "Sn", "S1", 0, 0, 1, 2, 3⟩,
     ⟨"Ln", "L1", "Mn", "M1", "Sn2", "S2", 0, 0, 1, 2, 3⟩]
    [("M1", (5 : ℚ))] (by decide)
    _ (by norm_num [mergeLeft, lookupAll])
    _ (by norm_num [mergeLeft, lookupAll]) rfl

/-! Feature-table write step, `compile_data.py` lines 385-401:
`df = df[final_columns]; df.to_csv(...)`.  A dataframe is modelled as a
column-name list plus rows mapping column names to serialized cell
text; `df[final_columns]` raises a `KeyError` (modelled as `none`,
nothing written) when a declared column is absent, and `to_csv` emits a
header line followed by every data row projected to the declared
columns. -/

/-- Dataframe at the write step: its columns and its rows, each row a
function from column name to the cell's serialized text. -/
structure DF where
  cols : List String
  rows : List (String → String)

/-- Declared output columns (`final_columns` of the script). -/
def final_columns : List String :=
  ["LA", "MSOA", "LSOA", "temperature", "energy_cost", "net_income",
   "politically_green", "pct_economically_active", "home_size",
   "pct_home_occupancy", "home_exposed_surfaces", "home_age",
   "energy_consumption_per_person"]

/-- The write step: project to the declared columns and serialize.
`none` models the uncaught `KeyError` of `df[final_columns]` when a
declared column is missing; no other validation exists in the script. -/
def writeStep (df : DF) : Option (List (List String)) :=
  if final_columns.all (fun c => df.cols.contains c)
  then some (final_columns :: df.rows.map (fun r => final_columns.map r))
  else none

/-- C3 counterexample: a final table whose two rows carry the same LSOA
key (so the claimed no-duplicate-keys and row-count validations fail) is
serialized without any error — the write step performs no validation. -/
theorem c3_counterexample :
    ¬ ((DF.mk final_columns
        [fun c => if c = "LSOA" then "E01000001" else "0",
         fun c => if c = "LSOA" then "E01000001" else "0"]).rows.map
        (fun r => r "LSOA")).Nodup ∧
    writeStep (DF.mk final_columns
        [fun c => if c = "LSOA" then "E01000001" else "0",
         fun c => if c = "LSOA" then "E01000001" else "0"]) ≠ none := by
  constructor
  · simp
  · rw [writeStep, if_pos (by decide)]
    simp

/-- C3 (amended): the write step projects the table to the declared
column set and serializes a header plus every data row unchanged; it
signals an error — writing nothing — exactly when a declared column is
absent, and performs no row-count or duplicate-LSOA-key validation. -/
theorem c3_write_projects_and_serializes (df df2 : DF)
    (h : final_columns.all (fun c => df.cols.contains c) = true)
    (h2 : final_columns.all (fun c => df2.cols.contains c) = false) :
    writeStep df =
      some (final_columns :: df.rows.map (fun r => final_columns.map r)) ∧
    (writeStep df).map List.length = some (df.rows.length + 1) ∧
    writeStep df2 = none := by
  refine ⟨by rw [writeStep, if_pos h], ?_, by rw [writeStep, if_neg (by rw [h2]; exact Bool.false_ne_true)]⟩
  rw [writeStep, if_pos h]
  simp

/-- Witness for C3 (amended): a well-formed one-row table is serialized
as header plus row; a column-less table errors. -/
theorem c3_write_projects_and_serializes_witness :
    writeStep (DF.mk final_columns [fun _ => "0"]) =
      some (final_columns ::
        ([fun _ => "0"] : List (String → String)).map
          (fun r => final_columns.map r)) ∧
    (writeStep (DF.mk final_columns [fun _ => "0"])).map List.length =
      some (([fun _ => "0"] : List (String → String)).length + 1) ∧
    writeStep (DF.mk [] [fun _ => "0"]) = none :=
  c3_write_projects_and_serializes (DF.mk final_columns [fun _ => "0"])
    (DF.mk [] [fun _ => "0"]) (by decide) (by decide)

end DomesticEnergy
